import Mathlib

/-!
Verification of the mirako-cli asynchronous task poller and result
materializer against its natural-language specification.

Modelling conventions:
* Go strings are modelled as `List Char`; Go byte slices as `List Nat`
  with every element `< 256`.
* `encoding/base64` `StdEncoding` is modelled faithfully: encoding in
  3-byte groups with `=` padding, decoding in 4-character groups that
  skips CR/LF characters (as Go's decoder does) and rejects any other
  character outside the standard alphabet, or misplaced padding.
* Filesystem writes (`os.MkdirAll`, `os.WriteFile`) are modelled by
  abstract success oracles, so their error returns (the spec's
  `IOError`) are represented; the decode step is modelled exactly.
* The `select`-based poll loops are modelled as step functions over an
  explicit event alphabet, with Go's `select` semantics (a uniformly
  random choice among ready cases) captured by the `SelectChoice`
  relation.
-/

/-- The standard base64 alphabet used by Go's `base64.StdEncoding`. -/
def b64Alphabet : List Char :=
  ("ABCDEFGHIJKLMNOPQRSTUVWXYZabcdefghijklmnopqrstuvwxyz0123456789+/").data

/-- The padding character of standard base64. -/
def padChar : Char := '='

/-- Line feed, skipped by Go's base64 decoder. -/
def lfChar : Char := Char.ofNat 10

/-- Carriage return, skipped by Go's base64 decoder. -/
def crChar : Char := Char.ofNat 13

/-- Comma, the data-URL separator searched for by `strings.Index(s, ",")`. -/
def commaChar : Char := ','

/-- Colon, present in every data-URL prefix and absent from the base64 alphabet. -/
def colonChar : Char := ':'

/-- The sixty-four-valued digit-to-character map of standard base64. -/
def b64char (n : Nat) : Char := b64Alphabet.getD n 'A'

/-- Inverse character lookup; `none` on characters outside the alphabet. -/
def decodeChar (c : Char) : Option Nat := b64Alphabet.findIdx? (fun x => x = c)

/-- Base64 encoding of a byte list, three bytes to four characters with
padding, as `base64.StdEncoding.EncodeToString` produces. -/
def b64encode : List Nat → List Char
  | [] => []
  | [a] => [b64char (a / 4), b64char (a % 4 * 16), padChar, padChar]
  | [a, b] => [b64char (a / 4), b64char (a % 4 * 16 + b / 16), b64char (b % 16 * 4), padChar]
  | a :: b :: c :: rest =>
      b64char (a / 4) :: b64char (a % 4 * 16 + b / 16) ::
        b64char (b % 16 * 4 + c / 64) :: b64char (c % 64) :: b64encode rest

/-- Base64 decoding of a CR/LF-free character list in four-character
quanta; `none` models the `CorruptInputError` of Go's decoder. -/
def b64decodeQuartets : List Char → Option (List Nat)
  | [] => some []
  | c1 :: c2 :: c3 :: c4 :: rest =>
      if c3 = padChar ∧ c4 = padChar ∧ rest = [] then
        match decodeChar c1, decodeChar c2 with
        | some x1, some x2 => some [x1 * 4 + x2 / 16]
        | _, _ => none
      else if c4 = padChar ∧ rest = [] then
        match decodeChar c1, decodeChar c2, decodeChar c3 with
        | some x1, some x2, some x3 => some [x1 * 4 + x2 / 16, x2 % 16 * 16 + x3 / 4]
        | _, _, _ => none
      else
        match decodeChar c1, decodeChar c2, decodeChar c3, decodeChar c4 with
        | some x1, some x2, some x3, some x4 =>
            match b64decodeQuartets rest with
            | some bs => some ((x1 * 4 + x2 / 16) :: (x2 % 16 * 16 + x3 / 4) :: (x3 % 4 * 64 + x4) :: bs)
            | none => none
        | _, _, _, _ => none
  | _ => none

/-- Go's `base64.StdEncoding.DecodeString`: newline characters are
skipped, then the input is consumed in four-character quanta. -/
def b64decodeGo (s : List Char) : Option (List Nat) :=
  b64decodeQuartets (s.filter (fun c => ¬(c = lfChar ∨ c = crChar)))

/-- The literal `data:image` prefix tested by `strings.HasPrefix`. -/
def dataImageLit : List Char := ("data:image").data

/-- Suffix after the first comma, `none` when no comma occurs; models
`strings.Index(s, ",")` followed by the slice `s[commaIndex+1:]`. -/
def dropThroughComma : List Char → Option (List Char)
  | [] => none
  | c :: rest => if c = commaChar then some rest else dropThroughComma rest

/-- Data-URL stripping performed before decoding in `saveImageFromBase64`:
only strings starting with the literal `data:image` are stripped, and
only through the first comma. -/
def stripDataImagePrefix (s : List Char) : List Char :=
  if dataImageLit.isPrefixOf s then
    match dropThroughComma s with
    | some r => r
    | none => s
  else s

/-- Decoding as the materializer's save path performs it: strip an
optional `data:image...` prefix, then base64-decode. -/
def materializeDecode (s : List Char) : Option (List Nat) :=
  b64decodeGo (stripDataImagePrefix s)

/-- Case-insensitive accepted-extension test of `saveImageFromBase64`:
`strings.HasSuffix(strings.ToLower(p), ".jpg")` or the `.jpeg` variant. -/
def endsWithJpgOrJpeg (p : List Char) : Bool :=
  (".jpg").data.isSuffixOf (p.map Char.toLower) ||
    (".jpeg").data.isSuffixOf (p.map Char.toLower)

/-- Extension canonicalization of `saveImageFromBase64`: append `.jpg`
unless the path already ends with an accepted variant. -/
def ensureJpgExt (p : List Char) : List Char :=
  if endsWithJpgOrJpeg p then p else p ++ (".jpg").data

/-- Substring test used to state that an error message includes a text. -/
def containsSub (hay sub : List Char) : Bool :=
  hay.tails.any (fun t => sub.isPrefixOf t)

/-- Wire literal for the completed terminal state. -/
def sCOMPLETED : List Char := ("COMPLETED").data

/-- Wire literal for the failed terminal state. -/
def sFAILED : List Char := ("FAILED").data

/-- Wire literal for the canceled terminal state. -/
def sCANCELED : List Char := ("CANCELED").data

/-- Wire literal for the timed-out terminal state. -/
def sTIMEDOUT : List Char := ("TIMEDOUT").data

/-- Initial status label shown by the generation loops before the first poll. -/
def sPROCESSING : List Char := ("PROCESSING").data

/-- Initial status label shown by the voice-clone loop before the first poll. -/
def sINQUEUE : List Char := ("IN_QUEUE").data

/-- Path separator; `filepath.Join` is modelled as separator insertion. -/
def slashChar : Char := '/'

/-- Simplified `filepath.Join` of two non-empty components. -/
def pathJoin (a b : List Char) : List Char := a ++ [slashChar] ++ b

/-- Result of the materializer's save path, one case per return path of
the source: success, malformed base64, a failed `os.MkdirAll`, or a
failed `os.WriteFile`. -/
inductive SaveResult
  | saved (path : List Char) (content : List Nat)
  | decodeError
  | mkdirError (dir : List Char)
  | writeError (path : List Char)
deriving DecidableEq

/-- Index of the last occurrence of a character, `none` when absent. -/
def lastIdxOf (c : Char) : List Char → Option Nat
  | [] => none
  | x :: xs =>
    match lastIdxOf c xs with
    | some i => some (i + 1)
    | none => if x = c then some 0 else none

/-- Simplified `filepath.Dir`: everything before the last separator,
`.` when there is none (path cleaning is not modelled; the result is
only fed to the `MkdirAll` oracle). -/
def dirOf (p : List Char) : List Char :=
  match lastIdxOf slashChar p with
  | some i => p.take i
  | none => (".").data

/-- Model of `saveImageFromBase64`: resolve the output path (explicit
path, else default directory plus timestamped name), canonicalize the
extension, strip an optional `data:image` prefix, decode, create the
parent directory, and write the file.  The current timestamp is
abstracted as the parameter `nowStamp`; the outcomes of `os.MkdirAll`
and `os.WriteFile` are abstracted as the oracles `mkdirOk` and
`writeOk` (path to success), mirroring the source's error returns. -/
def saveImageFromBase64 (mkdirOk writeOk : List Char → Bool)
    (imageData outputPath defaultSavePath nowStamp : List Char) : SaveResult :=
  let path0 := if outputPath = [] then
    pathJoin defaultSavePath (("image_").data ++ nowStamp ++ (".jpg").data)
  else outputPath
  let path := ensureJpgExt path0
  match b64decodeGo (stripDataImagePrefix imageData) with
  | some bs =>
    if mkdirOk (dirOf path) then
      if writeOk path then .saved path bs else .writeError path
    else .mkdirError (dirOf path)
  | none => .decodeError

/-- Caller-supplied parameters of the image-generation poll loop,
together with the filesystem-effect oracles of the save path. -/
structure GenParams where
  noSave : Bool
  outputPath : List Char
  defaultSavePath : List Char
  nowStamp : List Char
  mkdirOk : List Char → Bool
  writeOk : List Char → Bool

/-- Mutable state of one poll loop: the most recently observed status
string and the spinner frame index. -/
structure GenLoopState where
  currentStatus : List Char
  spinnerIndex : Nat
deriving DecidableEq

/-- Initial state of the image-generation loop. -/
def genInitState : GenLoopState := { currentStatus := sPROCESSING, spinnerIndex := 0 }

/-- Outcome of one status fetch.  The `errDetail` field of the `ok` case
is Modelled from the spec: the generated SDK response type
(`api.GenerateImageStatusApiResponseBody`) is not part of this
repository's sources; the spec's `TaskStatus` carries an optional
`errorDetail` present for failure variants.  The loop code under
`src/pkg/cmd/image/image.go` never reads it. -/
inductive FetchResult
  | transportError (friendly : Option (List Char)) (msg : List Char)
  | noData
  | ok (status : List Char) (image : Option (List Char)) (errDetail : Option (List Char))
deriving DecidableEq

/-- One iteration of the `select` loop takes exactly one of these events. -/
inductive GenEvent
  | cancel
  | poll (r : FetchResult)
  | spinner
deriving DecidableEq

/-- Exit value of the image-generation loop, distinguishing every
return path of `runGenerate`'s polling section. -/
inductive GenExit
  | cancelled
  | fetchFailed (msg : List Char)
  | unexpectedResponse
  | jobFailed (status : List Char)
  | decodeFailed
  | mkdirFailed (dir : List Char)
  | writeFailed (path : List Char)
  | completedNoSave (payload : List Char)
  | completedSaved (path : List Char) (content : List Nat)
  | completedNoImage
deriving DecidableEq

/-- Message of a failed status fetch: the user-friendly API message when
the error is an `APIError`, else the wrapped transport error. -/
def transportMsg (friendly : Option (List Char)) (m : List Char) : List Char :=
  match friendly with
  | some f => f
  | none => ("failed to check status: ").data ++ m

/-- Failure message of the image loop's terminal-failure branch. -/
def imageFailMsg (status : List Char) : List Char :=
  ("image generation failed with status: ").data ++ status

/-- Failure message of the avatar loop's terminal-failure branch. -/
def avatarFailMsg (status : List Char) : List Char :=
  ("avatar generation failed with status: ").data ++ status

/-- Failure message of the talking-avatar video loop's terminal-failure branch. -/
def videoFailMsg (status : List Char) : List Char :=
  ("talking avatar video generation failed with status: ").data ++ status

/-- Error message returned to the command layer for each exit, `none`
for the success exits (`err == nil` in the source). -/
def genExitMsg : GenExit → Option (List Char)
  | .cancelled => some (("operation cancelled: context canceled").data)
  | .fetchFailed m => some m
  | .unexpectedResponse => some (("unexpected response from server").data)
  | .jobFailed status => some (imageFailMsg status)
  | .decodeFailed => some (("failed to decode image data").data)
  | .mkdirFailed _ => some (("failed to create directory").data)
  | .writeFailed _ => some (("failed to save image").data)
  | .completedNoSave _ => none
  | .completedSaved _ _ => none
  | .completedNoImage => none

/-- The artifact produced by a successful exit: the payload reported
under `--no-save`, or the decoded bytes written to the resolved path. -/
inductive Artifact
  | reported (payload : List Char)
  | savedFile (path : List Char) (content : List Nat)
deriving DecidableEq

/-- Artifact carried by an exit, `none` when no artifact was produced. -/
def artifactOf : GenExit → Option Artifact
  | .completedNoSave payload => some (.reported payload)
  | .completedSaved path content => some (.savedFile path content)
  | _ => none

/-- Terminal-failure predicate of the generation loops. -/
def isTerminalFailure (status : List Char) : Bool :=
  status = sFAILED ∨ status = sCANCELED ∨ status = sTIMEDOUT

/-- One iteration of the image-generation poll loop
(`src/pkg/cmd/image/image.go`, the `for`/`select` at lines 152-201):
`inl` continues the loop with an updated state, `inr` returns.  Every
`inr` path prints the bare clear-line sequence exactly once. -/
def genStep (P : GenParams) (st : GenLoopState) (e : GenEvent) : GenLoopState ⊕ GenExit :=
  match e with
  | .cancel => .inr .cancelled
  | .spinner => .inl { st with spinnerIndex := st.spinnerIndex + 1 }
  | .poll r =>
    match r with
    | .transportError friendly m => .inr (.fetchFailed (transportMsg friendly m))
    | .noData => .inr .unexpectedResponse
    | .ok status image _errDetail =>
      if status = sCOMPLETED then
        match image with
        | some payload =>
          if P.noSave then .inr (.completedNoSave payload)
          else
            match saveImageFromBase64 P.mkdirOk P.writeOk payload P.outputPath
                P.defaultSavePath P.nowStamp with
            | .saved path bs => .inr (.completedSaved path bs)
            | .decodeError => .inr .decodeFailed
            | .mkdirError dir => .inr (.mkdirFailed dir)
            | .writeError path => .inr (.writeFailed path)
        | none => .inr .completedNoImage
      else if isTerminalFailure status then .inr (.jobFailed status)
      else .inl { st with currentStatus := status }

/-- Result of running the loop over a list of events: still running, or
finished with an exit and the number of bare clear-line prints. -/
inductive RunOut
  | running (st : GenLoopState) (clears : Nat)
  | finished (ex : GenExit) (clears : Nat)
deriving DecidableEq

/-- Run the image-generation loop over an event list; once a step
returns, the remaining events are not consumed. -/
def genRun (P : GenParams) : GenLoopState → Nat → List GenEvent → RunOut
  | st, clears, [] => .running st clears
  | st, clears, e :: es =>
    match genStep P st e with
    | .inl st2 => genRun P st2 clears es
    | .inr ex => .finished ex (clears + 1)

/-- Readiness of the three `select` cases at one iteration. -/
structure Ready where
  cancel : Bool
  poll : Bool
  spinner : Bool
deriving DecidableEq

/-- Go `select` semantics: when several cases are ready, one of them is
chosen by uniform pseudo-random selection, so every ready case is an
admissible choice and no case has priority. -/
inductive SelectChoice : Ready → GenEvent → Prop
  | cancel (r : Ready) : r.cancel = true → SelectChoice r GenEvent.cancel
  | poll (r : Ready) (f : FetchResult) : r.poll = true → SelectChoice r (GenEvent.poll f)
  | spinner (r : Ready) : r.spinner = true → SelectChoice r GenEvent.spinner

/-- Event lists in which every status fetch fails with a transport
error, as every fetch issued with a cancelled context does. -/
def fetchFailsOnly : List GenEvent → Bool
  | [] => true
  | GenEvent.poll (FetchResult.transportError _ _) :: es => fetchFailsOnly es
  | GenEvent.poll _ :: _ => false
  | GenEvent.cancel :: es => fetchFailsOnly es
  | GenEvent.spinner :: es => fetchFailsOnly es

/-- Mutable state of the voice-clone poll loop. -/
structure VLoopState where
  currentStatus : List Char
  spinnerIndex : Nat
deriving DecidableEq

/-- Initial state of the voice-clone loop. -/
def vInitState : VLoopState := { currentStatus := sINQUEUE, spinnerIndex := 0 }

/-- Outcome of one voice-clone status fetch; the `errField` models the
`Error` field read by the voice-clone loop's failure branch. -/
inductive VFetchResult
  | transportError (friendly : Option (List Char)) (msg : List Char)
  | noData
  | ok (status : List Char) (profileId : Option (List Char)) (errField : Option (List Char))
deriving DecidableEq

/-- Events of the voice-clone `select` loop. -/
inductive VEvent
  | cancel
  | poll (r : VFetchResult)
  | spinner
deriving DecidableEq

/-- Exit value of the voice-clone loop.  `nilProfilePanic` marks the
dereference of a nil `ProfileId` on the completed branch. -/
inductive VExit
  | cancelled
  | fetchFailed (msg : List Char)
  | unexpectedResponse
  | cloneFailed (msg : List Char)
  | completed (profileId : List Char)
  | nilProfilePanic
deriving DecidableEq

/-- Voice-clone failure message when the job's error detail is present
and non-empty. -/
def voiceFailDetailMsg (e : List Char) : List Char :=
  ("voice cloning failed: ").data ++ e

/-- Voice-clone failure message naming the literal terminal state. -/
def voiceFailStatusMsg (status : List Char) : List Char :=
  ("voice cloning failed with status: ").data ++ status

/-- One iteration of the voice-clone poll loop (`runCloneVoice`,
`src/unnamed/part_004`, the `for`/`select` at lines 337-381). -/
def vStep (st : VLoopState) (e : VEvent) : VLoopState ⊕ VExit :=
  match e with
  | .cancel => .inr .cancelled
  | .spinner => .inl { st with spinnerIndex := st.spinnerIndex + 1 }
  | .poll r =>
    match r with
    | .transportError friendly m => .inr (.fetchFailed (transportMsg friendly m))
    | .noData => .inr .unexpectedResponse
    | .ok status profileId errField =>
      if status = sCOMPLETED then
        match profileId with
        | some pid => .inr (.completed pid)
        | none => .inr .nilProfilePanic
      else if isTerminalFailure status then
        match errField with
        | some e2 =>
          if e2 ≠ [] then .inr (.cloneFailed (voiceFailDetailMsg e2))
          else .inr (.cloneFailed (voiceFailStatusMsg status))
        | none => .inr (.cloneFailed (voiceFailStatusMsg status))
      else .inl { st with currentStatus := status }

/-- An abstract file system: path to file contents, `none` when reading fails. -/
def FileSys : Type := List Char → Option (List Nat)

/-- `filepath.Ext`: the suffix of the final path element beginning at
its final dot, empty when the final element has no dot. -/
def extOf (p : List Char) : List Char :=
  let base := match lastIdxOf slashChar p with
    | some i => p.drop (i + 1)
    | none => p
  match lastIdxOf '.' base with
  | some i => base.drop i
  | none => []

/-- Content-type detection of `encodeImageToDataURL`: `image/png` for a
`.png` extension, else `image/jpeg`. -/
def contentTypeOf (p : List Char) : List Char :=
  let ext := (extOf p).map Char.toLower
  if ext = (".png").data then ("image/png").data
  else if ext = (".jpg").data ∨ ext = (".jpeg").data then ("image/jpeg").data
  else ("image/jpeg").data

/-- A labeled input image as sent to the API. -/
structure LabeledImage where
  data : List Char
  label : Option (List Char)
deriving DecidableEq

/-- Model of `encodeImageToDataURL`: read the file, detect the content
type by extension, and build the `data:<type>;base64,<payload>` URL. -/
def encodeImageToDataURL (fs : FileSys) (p : List Char) : Except (List Char) (List Char) :=
  match fs p with
  | none => .error (("failed to read image file ").data ++ p)
  | some bytes =>
    .ok (("data:").data ++ contentTypeOf p ++ (";base64,").data ++ b64encode bytes)

/-- Processing of the `--image` flags: each path becomes an unlabeled
entry; the first read failure aborts. -/
def encodeUnlabeled (fs : FileSys) : List (List Char) → Except (List Char) (List LabeledImage)
  | [] => .ok []
  | p :: ps =>
    match encodeImageToDataURL fs p with
    | .error e => .error e
    | .ok d =>
      match encodeUnlabeled fs ps with
      | .error e => .error e
      | .ok rest => .ok ({ data := d, label := none } :: rest)

/-- Split at the last colon, supporting paths that contain colons;
`none` when the string has no colon. -/
def splitLastColon (s : List Char) : Option (List Char × List Char) :=
  match lastIdxOf colonChar s with
  | some i => some (s.take i, s.drop (i + 1))
  | none => none

/-- Processing of the `--labeled-image` flags: split `path:label` at the
last colon, reject a missing colon or an empty label, then encode. -/
def encodeLabeled (fs : FileSys) : List (List Char) → Except (List Char) (List LabeledImage)
  | [] => .ok []
  | li :: ls =>
    match splitLastColon li with
    | none => .error (("invalid labeled image format: ").data ++ li)
    | some (path, label) =>
      if label = [] then .error (("label cannot be empty for labeled image: ").data ++ li)
      else
        match encodeImageToDataURL fs path with
        | .error e => .error e
        | .ok d =>
          match encodeLabeled fs ls with
          | .error e => .error e
          | .ok rest => .ok ({ data := d, label := some label } :: rest)

/-- Model of `parseInputImages`: `none` when no input flags are given;
otherwise encode all inputs and reject more than five combined entries. -/
def parseInputImages (fs : FileSys) (images labeledImages : List (List Char)) :
    Except (List Char) (Option (List LabeledImage)) :=
  if images = [] ∧ labeledImages = [] then .ok none
  else
    match encodeUnlabeled fs images with
    | .error e => .error e
    | .ok r1 =>
      match encodeLabeled fs labeledImages with
      | .error e => .error e
      | .ok r2 =>
        let result := r1 ++ r2
        if result.length > 5 then
          .error (("maximum 5 input images are supported, got ").data ++ (Nat.repr result.length).data)
        else .ok (some result)

/-- The asynchronous image-generation start request as assembled by
`runGenerate` before the first network call. -/
structure ImageStartReq where
  prompt : List Char
  aspect : List Char
  seed : Option Int
  inputImages : Option (List LabeledImage)
deriving DecidableEq

/-- Seed pointer of the image command: nil unless the flag value is non-zero. -/
def mkImageSeedPtr (seed : Int) : Option Int := if seed ≠ 0 then some seed else none

/-- Default value of the image command's `--seed` flag. -/
def imageSeedFlagDefault : Int := 0

/-- The avatar-generation start request as assembled by the avatar
command's `runGenerate` before the network call. -/
structure AvatarStartReq where
  prompt : List Char
  seed : Option Int
deriving DecidableEq

/-- Seed pointer of the avatar command: nil unless the flag value is non-zero. -/
def mkAvatarSeedPtr (seed : Int) : Option Int := if seed ≠ 0 then some seed else none

/-- Default value of the avatar command's `--seed` flag. -/
def avatarSeedFlagDefault : Int := 0

/-- Outcome of the image command's pre-network pipeline: an early
rejection, or the point where the start request goes on the wire. -/
inductive PreNetOutcome
  | rejected (msg : List Char)
  | startsNetwork (sync : Bool) (req : ImageStartReq)
deriving DecidableEq

/-- Image-generation `runGenerate` up to the first network call: the
prompt check and `parseInputImages` precede client creation and both the
sync and async start calls; `startsNetwork` marks the first request. -/
def runGeneratePreNet (fs : FileSys) (prompt aspect : List Char) (seed : Int)
    (syncMode : Bool) (images labeledImages : List (List Char)) : PreNetOutcome :=
  if prompt = [] then .rejected (("prompt is required. Use --prompt flag").data)
  else
    match parseInputImages fs images labeledImages with
    | .error e => .rejected (("failed to parse input images: ").data ++ e)
    | .ok inputImages =>
      .startsNetwork syncMode
        { prompt := prompt, aspect := aspect, seed := mkImageSeedPtr seed,
          inputImages := inputImages }

/-- Outcome of the voice-clone command's pre-network pipeline:
`proceeds` marks the point where the client is created and the clone
request goes on the wire. -/
inductive ClonePreOutcome
  | rejected (msg : List Char)
  | proceeds (foundFiles : Nat)
deriving DecidableEq

/-- Rejection message naming the number of audio files found. -/
def cloneMinFilesMsg (n : Nat) : List Char :=
  ("at least 6 .wav files are required for voice cloning. Found: ").data ++ (Nat.repr n).data

/-- Voice-clone `runCloneVoice` up to client creation (`src/unnamed/part_004`,
lines 257-297): name-length check, existence checks, directory scan and
minimum-count check all precede `client.New` and every network call.
The `filepath.Walk`-based scan is abstracted as its result. -/
def runCloneVoicePreNet (name audioDir annotations : List Char)
    (audioDirExists annotationsExists : Bool)
    (scan : Except (List Char) (List (List Char))) : ClonePreOutcome :=
  if name.length < 3 ∨ name.length > 64 then
    .rejected (("name must be between 3 and 64 characters").data)
  else if ¬audioDirExists then
    .rejected (("audio directory does not exist: ").data ++ audioDir)
  else if ¬annotationsExists then
    .rejected (("annotations file does not exist: ").data ++ annotations)
  else
    match scan with
    | .error e => .rejected (("failed to scan audio files: ").data ++ e)
    | .ok files =>
      if files.length < 6 then .rejected (cloneMinFilesMsg files.length)
      else .proceeds files.length

theorem decodeChar_b64char : ∀ n < 64, decodeChar (b64char n) = some n := by decide

theorem b64char_ne_pad : ∀ n < 64, b64char n ≠ padChar := by decide

theorem b64Alphabet_length : b64Alphabet.length = 64 := by decide

theorem b64char_ne_special (n : Nat) :
    b64char n ≠ lfChar ∧ b64char n ≠ crChar ∧ b64char n ≠ colonChar := by
  by_cases hn : n < 64
  · exact (by decide : ∀ m < 64, b64char m ≠ lfChar ∧ b64char m ≠ crChar ∧ b64char m ≠ colonChar) n hn
  · unfold b64char
    rw [List.getD_eq_default]
    · exact ⟨by decide, by decide, by decide⟩
    · rw [b64Alphabet_length]; omega

theorem pad_ne_special : padChar ≠ lfChar ∧ padChar ≠ crChar := by decide

theorem b64decodeQuartets_encode :
    ∀ (bs : List Nat), (∀ x ∈ bs, x < 256) → b64decodeQuartets (b64encode bs) = some bs
  | [], _ => by simp [b64encode, b64decodeQuartets]
  | [a], h => by
    have ha : a < 256 := h a (by simp)
    have h1 : decodeChar (b64char (a / 4)) = some (a / 4) := decodeChar_b64char _ (by omega)
    have h2 : decodeChar (b64char (a % 4 * 16)) = some (a % 4 * 16) := decodeChar_b64char _ (by omega)
    simp [b64encode, b64decodeQuartets, h1, h2]
    omega
  | [a, b], h => by
    have ha : a < 256 := h a (by simp)
    have hb : b < 256 := h b (by simp)
    have h1 : decodeChar (b64char (a / 4)) = some (a / 4) := decodeChar_b64char _ (by omega)
    have h2 : decodeChar (b64char (a % 4 * 16 + b / 16)) = some (a % 4 * 16 + b / 16) :=
      decodeChar_b64char _ (by omega)
    have h3 : decodeChar (b64char (b % 16 * 4)) = some (b % 16 * 4) := decodeChar_b64char _ (by omega)
    have hp3 : b64char (b % 16 * 4) ≠ padChar := b64char_ne_pad _ (by omega)
    simp [b64encode, b64decodeQuartets, h1, h2, h3, hp3]
    omega
  | a :: b :: c :: rest, h => by
    have ha : a < 256 := h a (by simp)
    have hb : b < 256 := h b (by simp)
    have hc : c < 256 := h c (by simp)
    have h1 : decodeChar (b64char (a / 4)) = some (a / 4) := decodeChar_b64char _ (by omega)
    have h2 : decodeChar (b64char (a % 4 * 16 + b / 16)) = some (a % 4 * 16 + b / 16) :=
      decodeChar_b64char _ (by omega)
    have h3 : decodeChar (b64char (b % 16 * 4 + c / 64)) = some (b % 16 * 4 + c / 64) :=
      decodeChar_b64char _ (by omega)
    have h4 : decodeChar (b64char (c % 64)) = some (c % 64) := decodeChar_b64char _ (by omega)
    have hp3 : b64char (b % 16 * 4 + c / 64) ≠ padChar := b64char_ne_pad _ (by omega)
    have hp4 : b64char (c % 64) ≠ padChar := b64char_ne_pad _ (by omega)
    have ih : b64decodeQuartets (b64encode rest) = some rest :=
      b64decodeQuartets_encode rest (fun x hx => h x (by simp [hx]))
    simp [b64encode, b64decodeQuartets, h1, h2, h3, h4, hp3, hp4, ih]
    omega

theorem b64encode_mem :
    ∀ (bs : List Nat) (c : Char), c ∈ b64encode bs → (∃ n, c = b64char n) ∨ c = padChar
  | [], c, hc => by simp [b64encode] at hc
  | [a], c, hc => by
    simp [b64encode] at hc
    rcases hc with rfl | rfl | rfl
    · exact Or.inl ⟨_, rfl⟩
    · exact Or.inl ⟨_, rfl⟩
    · exact Or.inr rfl
  | [a, b], c, hc => by
    simp [b64encode] at hc
    rcases hc with rfl | rfl | rfl | rfl
    · exact Or.inl ⟨_, rfl⟩
    · exact Or.inl ⟨_, rfl⟩
    · exact Or.inl ⟨_, rfl⟩
    · exact Or.inr rfl
  | a :: b :: d :: rest, c, hc => by
    simp only [b64encode, List.mem_cons] at hc
    rcases hc with rfl | rfl | rfl | rfl | hmem
    · exact Or.inl ⟨_, rfl⟩
    · exact Or.inl ⟨_, rfl⟩
    · exact Or.inl ⟨_, rfl⟩
    · exact Or.inl ⟨_, rfl⟩
    · exact b64encode_mem rest c hmem

theorem b64encode_filter (bs : List Nat) :
    (b64encode bs).filter (fun c => ¬(c = lfChar ∨ c = crChar)) = b64encode bs := by
  apply List.filter_eq_self.mpr
  intro c hc
  simp only [decide_eq_true_eq]
  rcases b64encode_mem bs c hc with ⟨n, rfl⟩ | rfl
  · rintro (h | h)
    · exact (b64char_ne_special n).1 h
    · exact (b64char_ne_special n).2.1 h
  · rintro (h | h)
    · exact pad_ne_special.1 h
    · exact pad_ne_special.2 h

theorem b64decodeGo_encode (bs : List Nat) (h : ∀ x ∈ bs, x < 256) :
    b64decodeGo (b64encode bs) = some bs := by
  unfold b64decodeGo
  rw [b64encode_filter]
  exact b64decodeQuartets_encode bs h

theorem colon_mem_dataImageLit : colonChar ∈ dataImageLit := by decide

theorem comma_not_mem_dataImageLit : commaChar ∉ dataImageLit := by decide

theorem dataImage_not_prefix_encode (bs : List Nat) :
    dataImageLit.isPrefixOf (b64encode bs) = false := by
  cases hp : dataImageLit.isPrefixOf (b64encode bs) with
  | false => rfl
  | true =>
    exfalso
    have hpre : dataImageLit <+: b64encode bs := List.isPrefixOf_iff_prefix.mp hp
    have hmem : colonChar ∈ b64encode bs := hpre.subset colon_mem_dataImageLit
    rcases b64encode_mem bs colonChar hmem with ⟨n, hn⟩ | hn
    · exact (b64char_ne_special n).2.2 hn.symm
    · exact absurd hn (by decide)

theorem dropThroughComma_append (xs ys : List Char) (hx : commaChar ∉ xs) :
    dropThroughComma (xs ++ commaChar :: ys) = some ys := by
  induction xs with
  | nil => simp [dropThroughComma]
  | cons x xs ih =>
    have hxc : x ≠ commaChar := fun hcon => hx (by simp [hcon])
    simp only [List.cons_append, dropThroughComma, if_neg hxc]
    exact ih (fun hcon => hx (List.mem_cons_of_mem _ hcon))

theorem strip_encode (bs : List Nat) :
    stripDataImagePrefix (b64encode bs) = b64encode bs := by
  unfold stripDataImagePrefix
  rw [dataImage_not_prefix_encode]
  simp

theorem strip_prefixed (q : List Char) (bs : List Nat) (hq : commaChar ∉ q) :
    stripDataImagePrefix (dataImageLit ++ q ++ [commaChar] ++ b64encode bs) = b64encode bs := by
  unfold stripDataImagePrefix
  have hpre : dataImageLit.isPrefixOf (dataImageLit ++ q ++ [commaChar] ++ b64encode bs) = true := by
    apply List.isPrefixOf_iff_prefix.mpr
    exact ((dataImageLit.prefix_append q).trans (List.prefix_append _ _)).trans (List.prefix_append _ _)
  rw [hpre]
  have hnc : commaChar ∉ dataImageLit ++ q := by
    intro hmem
    rcases List.mem_append.mp hmem with hmem | hmem
    · exact comma_not_mem_dataImageLit hmem
    · exact hq hmem
  have harr : dataImageLit ++ q ++ [commaChar] ++ b64encode bs
      = (dataImageLit ++ q) ++ (commaChar :: b64encode bs) := by simp
  rw [harr, dropThroughComma_append _ _ hnc]
  simp

theorem containsSub_append_right (a b : List Char) : containsSub (a ++ b) b = true := by
  unfold containsSub
  rw [List.any_eq_true]
  refine ⟨b, (List.mem_tails _ _).mpr (List.suffix_append a b), ?_⟩
  simp [List.isPrefixOf_iff_prefix]

theorem endsWith_append_jpg (p : List Char) : endsWithJpgOrJpeg (p ++ (".jpg").data) = true := by
  unfold endsWithJpgOrJpeg
  apply Bool.or_eq_true_iff.mpr
  left
  apply List.isSuffixOf_iff_suffix.mpr
  rw [List.map_append]
  have : (".jpg").data.map Char.toLower = (".jpg").data := by decide
  rw [this]
  exact List.suffix_append _ _

theorem ensureJpgExt_noop (p : List Char) (h : endsWithJpgOrJpeg p = true) :
    ensureJpgExt p = p := by
  unfold ensureJpgExt
  rw [h]
  simp

theorem ensureJpgExt_idem_aux (p : List Char) :
    ensureJpgExt (ensureJpgExt p) = ensureJpgExt p := by
  by_cases h : endsWithJpgOrJpeg p = true
  · rw [ensureJpgExt_noop p h, ensureJpgExt_noop p h]
  · have hp : ensureJpgExt p = p ++ (".jpg").data := by
      unfold ensureJpgExt
      rw [Bool.eq_false_iff.mpr h]
      simp
    rw [hp]
    exact ensureJpgExt_noop _ (endsWith_append_jpg p)

theorem encodeUnlabeled_length (fs : FileSys) :
    ∀ (ps : List (List Char)) (r : List LabeledImage),
      encodeUnlabeled fs ps = .ok r → r.length = ps.length
  | [], r, h => by
    simp only [encodeUnlabeled] at h
    cases h
    rfl
  | p :: ps, r, h => by
    simp only [encodeUnlabeled] at h
    cases henc : encodeImageToDataURL fs p with
    | error e => rw [henc] at h; cases h
    | ok d =>
      rw [henc] at h
      cases hrest : encodeUnlabeled fs ps with
      | error e => rw [hrest] at h; cases h
      | ok rest =>
        rw [hrest] at h
        cases h
        simp [encodeUnlabeled_length fs ps rest hrest]

theorem encodeLabeled_length (fs : FileSys) :
    ∀ (ls : List (List Char)) (r : List LabeledImage),
      encodeLabeled fs ls = .ok r → r.length = ls.length
  | [], r, h => by
    simp only [encodeLabeled] at h
    cases h
    rfl
  | li :: ls, r, h => by
    simp only [encodeLabeled] at h
    cases hsplit : splitLastColon li with
    | none => rw [hsplit] at h; cases h
    | some pl =>
      rw [hsplit] at h
      obtain ⟨path, label⟩ := pl
      dsimp only at h
      by_cases hlab : label = []
      · rw [if_pos hlab] at h; cases h
      · rw [if_neg hlab] at h
        cases henc : encodeImageToDataURL fs path with
        | error e => rw [henc] at h; cases h
        | ok d =>
          rw [henc] at h
          cases hrest : encodeLabeled fs ls with
          | error e => rw [hrest] at h; cases h
          | ok rest =>
            rw [hrest] at h
            cases h
            simp [encodeLabeled_length fs ls rest hrest]

theorem parseInputImages_too_many (fs : FileSys) (images labeledImages : List (List Char))
    (h : images.length + labeledImages.length > 5) :
    ∃ e, parseInputImages fs images labeledImages = .error e := by
  unfold parseInputImages
  have hne : ¬(images = [] ∧ labeledImages = []) := by
    rintro ⟨rfl, rfl⟩
    simp at h
  rw [if_neg hne]
  cases h1 : encodeUnlabeled fs images with
  | error e => exact ⟨e, rfl⟩
  | ok r1 =>
    cases h2 : encodeLabeled fs labeledImages with
    | error e => exact ⟨e, rfl⟩
    | ok r2 =>
      have hl1 := encodeUnlabeled_length fs images r1 h1
      have hl2 := encodeLabeled_length fs labeledImages r2 h2
      have hlen : (r1 ++ r2).length > 5 := by
        rw [List.length_append, hl1, hl2]
        exact h
      dsimp only
      rw [if_pos hlen]
      exact ⟨_, rfl⟩

theorem saveImageFromBase64_ok (mkdirOk writeOk : List Char → Bool)
    (imageData outputPath defaultSavePath nowStamp : List Char) (bs : List Nat)
    (hdec : b64decodeGo (stripDataImagePrefix imageData) = some bs)
    (hmk : ∀ p, mkdirOk p = true) (hwr : ∀ p, writeOk p = true) :
    ∃ path, saveImageFromBase64 mkdirOk writeOk imageData outputPath defaultSavePath nowStamp =
      SaveResult.saved path bs := by
  unfold saveImageFromBase64
  rw [hdec]
  simp only [hmk, hwr, if_true]
  exact ⟨_, rfl⟩

theorem genRun_fetchFails (P : GenParams) :
    ∀ (evs : List GenEvent) (st : GenLoopState) (c : Nat) (ex : GenExit) (n : Nat),
      fetchFailsOnly evs = true →
      genRun P st c evs = RunOut.finished ex n →
      (ex = GenExit.cancelled ∨ ∃ m, ex = GenExit.fetchFailed m) ∧ n = c + 1
  | [], st, c, ex, n, _, hrun => by simp [genRun] at hrun
  | GenEvent.cancel :: evs, st, c, ex, n, hff, hrun => by
    simp only [genRun, genStep] at hrun
    cases hrun
    exact ⟨Or.inl rfl, rfl⟩
  | GenEvent.spinner :: evs, st, c, ex, n, hff, hrun => by
    simp only [genRun, genStep] at hrun
    exact genRun_fetchFails P evs _ c ex n (by simpa [fetchFailsOnly] using hff) hrun
  | GenEvent.poll (FetchResult.transportError friendly m) :: evs, st, c, ex, n, hff, hrun => by
    simp only [genRun, genStep] at hrun
    cases hrun
    exact ⟨Or.inr ⟨_, rfl⟩, rfl⟩
  | GenEvent.poll FetchResult.noData :: evs, st, c, ex, n, hff, hrun => by
    simp [fetchFailsOnly] at hff
  | GenEvent.poll (FetchResult.ok status img d) :: evs, st, c, ex, n, hff, hrun => by
    simp [fetchFailsOnly] at hff

/-- Claim C1 (counterexample): with a terminal status `FAILED` and the
spec-modelled errorDetail `quota exceeded` present, the image poll loop
returns the error `image generation failed with status: FAILED`, whose
message does not include the errorDetail; so the claim that every poll
loop includes `errorDetail` when present fails on the image loop. -/
theorem c1_image_ignores_errorDetail_cex :
    genStep ⟨false, [], [], [], fun _ => true, fun _ => true⟩ genInitState
        (GenEvent.poll (FetchResult.ok sFAILED none (some (("quota exceeded").data)))) =
      Sum.inr (GenExit.jobFailed sFAILED) ∧
    genExitMsg (GenExit.jobFailed sFAILED) = some (imageFailMsg sFAILED) ∧
    containsSub (imageFailMsg sFAILED) (("quota exceeded").data) = false :=
  ⟨by decide, rfl, by decide⟩

/-- Claim C1 (amended): on a terminal state in Failed/Canceled/TimedOut,
only the voice-clone loop's error includes the job's errorDetail (when
present and non-empty); the image loop (and the avatar and video loops,
whose failure messages are the analogous literals) returns exactly
`image generation failed with status: <state>` regardless of any
errorDetail, a message that includes the literal terminal-state string. -/
theorem c1_failure_messages (status d : List Char) (P : GenParams)
    (st : GenLoopState) (vst : VLoopState) (img : Option (List Char))
    (pid : Option (List Char)) (hterm : isTerminalFailure status = true) (hd : d ≠ []) :
    genStep P st (GenEvent.poll (FetchResult.ok status img (some d))) =
      Sum.inr (GenExit.jobFailed status) ∧
    genExitMsg (GenExit.jobFailed status) = some (imageFailMsg status) ∧
    containsSub (imageFailMsg status) status = true ∧
    vStep vst (VEvent.poll (VFetchResult.ok status pid (some d))) =
      Sum.inr (VExit.cloneFailed (voiceFailDetailMsg d)) ∧
    containsSub (voiceFailDetailMsg d) d = true ∧
    containsSub (avatarFailMsg status) status = true ∧
    containsSub (videoFailMsg status) status = true := by
  have hs : status = sFAILED ∨ status = sCANCELED ∨ status = sTIMEDOUT := by
    simpa [isTerminalFailure] using hterm
  have hne : ¬(status = sCOMPLETED) := by
    rcases hs with rfl | rfl | rfl <;> decide
  refine ⟨?_, rfl, containsSub_append_right _ _, ?_, containsSub_append_right _ _,
    containsSub_append_right _ _, containsSub_append_right _ _⟩
  · simp only [genStep]
    rw [if_neg hne]
    simp [hterm]
  · simp only [vStep]
    rw [if_neg hne]
    simp [hterm, hd]

/-- Claim C1 (witness): the amended statement at status `FAILED` with
errorDetail `quota exceeded`. -/
theorem c1_failure_messages_witness :
    isTerminalFailure sFAILED = true ∧ (("quota exceeded").data ≠ []) ∧
    (genStep ⟨false, [], [], [], fun _ => true, fun _ => true⟩ genInitState
        (GenEvent.poll (FetchResult.ok sFAILED none (some (("quota exceeded").data)))) =
      Sum.inr (GenExit.jobFailed sFAILED) ∧
    genExitMsg (GenExit.jobFailed sFAILED) = some (imageFailMsg sFAILED) ∧
    containsSub (imageFailMsg sFAILED) sFAILED = true ∧
    vStep vInitState (VEvent.poll (VFetchResult.ok sFAILED none (some (("quota exceeded").data)))) =
      Sum.inr (VExit.cloneFailed (voiceFailDetailMsg (("quota exceeded").data))) ∧
    containsSub (voiceFailDetailMsg (("quota exceeded").data)) (("quota exceeded").data) = true ∧
    containsSub (avatarFailMsg sFAILED) sFAILED = true ∧
    containsSub (videoFailMsg sFAILED) sFAILED = true) :=
  ⟨by decide, by decide,
    c1_failure_messages sFAILED (("quota exceeded").data) ⟨false, [], [], [], fun _ => true, fun _ => true⟩ genInitState
      vInitState none none (by decide) (by decide)⟩

/-- Claim C2 (counterexample): a poll returning `COMPLETED` with a
malformed base64 payload makes the image loop return a decode error and
no artifact, so the loop does not "never return an error" on Completed. -/
theorem c2_completed_decode_error_cex :
    genStep ⟨false, [], [], [], fun _ => true, fun _ => true⟩ genInitState
        (GenEvent.poll (FetchResult.ok sCOMPLETED (some (("!!!!").data)) none)) =
      Sum.inr GenExit.decodeFailed ∧
    genExitMsg GenExit.decodeFailed ≠ none ∧
    artifactOf GenExit.decodeFailed = none :=
  ⟨by decide, by decide, by decide⟩

/-- Claim C2 (amended): when a poll returns `COMPLETED`, the image loop
always exits; it returns an artifact and no error whenever the payload
is present and either `--no-save` is set, or the payload decodes and
the parent-directory creation and file write both succeed; a
`COMPLETED` response with no payload exits successfully with no
artifact (a malformed payload without `--no-save` is a decode error,
per the counterexample, and a failed directory creation or write is the
corresponding IO error). -/
theorem c2_completed_success (P : GenParams) (st : GenLoopState) (payload : List Char)
    (errD errD2 : Option (List Char))
    (h : b64decodeGo (stripDataImagePrefix payload) ≠ none ∨ P.noSave = true)
    (hmk : ∀ p, P.mkdirOk p = true) (hwr : ∀ p, P.writeOk p = true) :
    (∃ ex, genStep P st (GenEvent.poll (FetchResult.ok sCOMPLETED (some payload) errD)) =
        Sum.inr ex ∧ genExitMsg ex = none ∧ artifactOf ex ≠ none) ∧
    genStep P st (GenEvent.poll (FetchResult.ok sCOMPLETED none errD2)) =
      Sum.inr GenExit.completedNoImage := by
  constructor
  · by_cases hns : P.noSave = true
    · exact ⟨GenExit.completedNoSave payload, by simp [genStep, hns], rfl, by simp [artifactOf]⟩
    · have hde : b64decodeGo (stripDataImagePrefix payload) ≠ none := by
        rcases h with h | h
        · exact h
        · exact absurd h hns
      cases hdec : b64decodeGo (stripDataImagePrefix payload) with
      | none => exact absurd hdec hde
      | some bs =>
        obtain ⟨path, hsave⟩ := saveImageFromBase64_ok P.mkdirOk P.writeOk payload
          P.outputPath P.defaultSavePath P.nowStamp bs hdec hmk hwr
        refine ⟨GenExit.completedSaved path bs, ?_, rfl, by simp [artifactOf]⟩
        simp [genStep, hns, hsave]
  · simp [genStep]

/-- Claim C2 (witness): the amended statement with a well-formed payload
`aGk=` and `--no-save` unset. -/
theorem c2_completed_success_witness :
    b64decodeGo (stripDataImagePrefix (("aGk=").data)) ≠ none ∧
    ((∃ ex, genStep ⟨false, [], [], [], fun _ => true, fun _ => true⟩ genInitState
        (GenEvent.poll (FetchResult.ok sCOMPLETED (some (("aGk=").data)) none)) =
          Sum.inr ex ∧ genExitMsg ex = none ∧ artifactOf ex ≠ none) ∧
      genStep ⟨false, [], [], [], fun _ => true, fun _ => true⟩ genInitState
        (GenEvent.poll (FetchResult.ok sCOMPLETED none none)) =
          Sum.inr GenExit.completedNoImage) :=
  ⟨by decide,
    c2_completed_success ⟨false, [], [], [], fun _ => true, fun _ => true⟩ genInitState
      (("aGk=").data) none none (Or.inl (by decide)) (fun _ => rfl) (fun _ => rfl)⟩

/-- Claim C3 (counterexample): a data-URL prefix of the documented shape
`data:*;base64,` whose media type is not `image` (here `data:audio/wav;base64,`)
is not stripped by the materializer, so encode-then-decode is not the
identity for every such prefix. -/
theorem c3_nonimage_prefix_cex :
    materializeDecode (("data:audio/wav;base64,").data ++ b64encode [104, 105]) ≠
      some [104, 105] := by decide

/-- Claim C3 (amended): encoding arbitrary binary content to standard
base64 and decoding it via the materializer's save path is the identity
with no prefix, and with any data-URL prefix that starts with the
literal `data:image` and ends at its first comma; other media types are
not stripped. -/
theorem c3_roundtrip (bs : List Nat) (q : List Char)
    (hb : ∀ x ∈ bs, x < 256) (hq : commaChar ∉ q) :
    materializeDecode (dataImageLit ++ q ++ [commaChar] ++ b64encode bs) = some bs ∧
    materializeDecode (b64encode bs) = some bs := by
  constructor
  · unfold materializeDecode
    rw [strip_prefixed q bs hq]
    exact b64decodeGo_encode bs hb
  · unfold materializeDecode
    rw [strip_encode]
    exact b64decodeGo_encode bs hb

/-- Claim C3 (witness): the amended round-trip on the bytes of `hi`
with the prefix `data:image/png;base64,`. -/
theorem c3_roundtrip_witness :
    (∀ x ∈ ([104, 105] : List Nat), x < 256) ∧ commaChar ∉ (("/png;base64").data) ∧
    (materializeDecode (dataImageLit ++ (("/png;base64").data) ++ [commaChar] ++
        b64encode [104, 105]) = some [104, 105] ∧
      materializeDecode (b64encode [104, 105]) = some [104, 105]) :=
  ⟨by decide, by decide, c3_roundtrip [104, 105] (("/png;base64").data) (by decide) (by decide)⟩

/-- Claim C4: the extension-canonicalization rule is a no-op on paths
that already end (case-insensitively) with an accepted extension, and
it is idempotent on every path. -/
theorem c4_ensureExt_idempotent :
    (∀ p, endsWithJpgOrJpeg p = true → ensureJpgExt p = p) ∧
    (∀ p, ensureJpgExt (ensureJpgExt p) = ensureJpgExt p) :=
  ⟨ensureJpgExt_noop, ensureJpgExt_idem_aux⟩

/-- Claim C4 (witness): the no-op case on `a.JPG` and idempotence on a
path without an extension. -/
theorem c4_ensureExt_idempotent_witness :
    endsWithJpgOrJpeg (("a.JPG").data) = true ∧
    ensureJpgExt (("a.JPG").data) = ("a.JPG").data ∧
    ensureJpgExt (ensureJpgExt (("b").data)) = ensureJpgExt (("b").data) :=
  ⟨by decide, c4_ensureExt_idempotent.1 _ (by decide), c4_ensureExt_idempotent.2 _⟩

/-- Claim C5: whenever the `--image` and `--labeled-image` flags together
name more than five input images, the image-generation command is
rejected before any network call: the pipeline ends in `rejected` and
never reaches the `startsNetwork` point. -/
theorem c5_too_many_images (fs : FileSys) (prompt aspect : List Char) (seed : Int)
    (syncMode : Bool) (images labeledImages : List (List Char))
    (h : images.length + labeledImages.length > 5) :
    ∃ m, runGeneratePreNet fs prompt aspect seed syncMode images labeledImages =
      PreNetOutcome.rejected m := by
  unfold runGeneratePreNet
  by_cases hp : prompt = []
  · rw [if_pos hp]
    exact ⟨_, rfl⟩
  · rw [if_neg hp]
    obtain ⟨e, he⟩ := parseInputImages_too_many fs images labeledImages h
    rw [he]
    exact ⟨_, rfl⟩

/-- Claim C5 (witness): six readable input images are rejected. -/
theorem c5_too_many_images_witness :
    ([("a").data, ("b").data, ("c").data, ("d").data, ("e").data, ("f").data].length +
        ([] : List (List Char)).length > 5) ∧
    ∃ m, runGeneratePreNet (fun _ => some []) (("p").data) (("16:9").data) 0 false
        [("a").data, ("b").data, ("c").data, ("d").data, ("e").data, ("f").data] [] =
      PreNetOutcome.rejected m :=
  ⟨by decide, c5_too_many_images _ _ _ _ _ _ _ (by decide)⟩

/-- Claim C6 (counterexample): the loop's `select` admits taking the
poll branch while the cancellation case is simultaneously ready, so
cancellation does not always win. -/
theorem c6_cancel_priority_cex :
    ¬ (∀ (r : Ready) (e : GenEvent), r.cancel = true → r.poll = true →
        SelectChoice r e → e = GenEvent.cancel) := by
  intro hall
  have := hall ⟨true, true, false⟩ (GenEvent.poll FetchResult.noData) rfl rfl
      (SelectChoice.poll _ FetchResult.noData rfl)
  simp at this

/-- Claim C6 (amended): when the cancellation signal and a poll tick are
simultaneously ready, Go's `select` chooses uniformly at random, so both
the cancellation branch and the poll branch are admissible choices and
neither has priority. -/
theorem c6_select_no_priority (r : Ready) (f : FetchResult)
    (hc : r.cancel = true) (hp : r.poll = true) :
    SelectChoice r GenEvent.cancel ∧ SelectChoice r (GenEvent.poll f) :=
  ⟨SelectChoice.cancel r hc, SelectChoice.poll r f hp⟩

/-- Claim C6 (witness): both branches admissible with both cases ready. -/
theorem c6_select_no_priority_witness :
    (Ready.mk true true false).cancel = true ∧ (Ready.mk true true false).poll = true ∧
    (SelectChoice (Ready.mk true true false) GenEvent.cancel ∧
      SelectChoice (Ready.mk true true false) (GenEvent.poll FetchResult.noData)) :=
  ⟨rfl, rfl, c6_select_no_priority _ _ rfl rfl⟩

/-- Claim C7 (counterexample): with cancellation fired and a poll tick
simultaneously ready, the select may take the poll branch; the fetch on
the cancelled context fails, and the loop's outcome is the transport
error `failed to check status: context canceled` rather than the
cancellation error, refuting that the outcome is always a cancellation
error. -/
theorem c7_cancellation_outcome_cex :
    SelectChoice (Ready.mk true true false)
      (GenEvent.poll (FetchResult.transportError none (("context canceled").data))) ∧
    genRun ⟨false, [], [], [], fun _ => true, fun _ => true⟩ genInitState 0
        [GenEvent.poll (FetchResult.transportError none (("context canceled").data))] =
      RunOut.finished (GenExit.fetchFailed (("failed to check status: context canceled").data)) 1 ∧
    GenExit.fetchFailed (("failed to check status: context canceled").data) ≠ GenExit.cancelled :=
  ⟨SelectChoice.poll _ _ rfl, by decide, by decide⟩

/-- Claim C7 (amended): in any admissible run taken after cancellation
has fired, in which every attempted status fetch fails (as a fetch with
a cancelled context does), a terminating loop returns either the
cancellation error or the transport error of the failed fetch — never a
success or a job-failure outcome — and the transient progress line is
cleared exactly once. -/
theorem c7_cancelled_run (tr : List (Ready × GenEvent)) (P : GenParams)
    (st : GenLoopState) (ex : GenExit) (n : Nat)
    (hadm : ∀ q ∈ tr, q.1.cancel = true ∧ SelectChoice q.1 q.2)
    (hff : fetchFailsOnly (tr.map Prod.snd) = true)
    (hrun : genRun P st 0 (tr.map Prod.snd) = RunOut.finished ex n) :
    (ex = GenExit.cancelled ∨ ∃ m, ex = GenExit.fetchFailed m) ∧ n = 1 :=
  genRun_fetchFails P (tr.map Prod.snd) st 0 ex n hff hrun

/-- Claim C7 (witness): a spinner tick followed by the cancellation
branch, with cancellation ready throughout. -/
theorem c7_cancelled_run_witness :
    (GenExit.cancelled = GenExit.cancelled ∨ ∃ m, GenExit.cancelled = GenExit.fetchFailed m) ∧
      (1 : Nat) = 1 :=
  c7_cancelled_run
    [(Ready.mk true false true, GenEvent.spinner), (Ready.mk true true false, GenEvent.cancel)]
    ⟨false, [], [], [], fun _ => true, fun _ => true⟩ genInitState GenExit.cancelled 1
    (by
      intro q hq
      simp only [List.mem_cons, List.not_mem_nil, or_false] at hq
      rcases hq with rfl | rfl
      · exact ⟨rfl, SelectChoice.spinner _ rfl⟩
      · exact ⟨rfl, SelectChoice.cancel _ rfl⟩)
    (by decide) (by decide)

/-- Claim C8: a status fetch failing with a transport error makes the
poll loop return at once with that error surfaced (the non-API message
wraps and so includes the transport error text), and the remaining
events — in particular any further status fetches — are never consumed,
whatever they are. -/
theorem c8_transport_error_aborts (P : GenParams) (st : GenLoopState) (c : Nat)
    (friendly : Option (List Char)) (m : List Char) (es : List GenEvent) :
    genRun P st c (GenEvent.poll (FetchResult.transportError friendly m) :: es) =
      RunOut.finished (GenExit.fetchFailed (transportMsg friendly m)) (c + 1) ∧
    containsSub (transportMsg none m) m = true := by
  constructor
  · simp [genRun, genStep]
  · exact containsSub_append_right _ _

/-- Claim C9: for both the image command (`int32` seed) and the avatar
command (`int64` seed), a `--seed` value of 0 produces a nil seed
pointer, so the start request carries no seed and equals the request
built from the flag's default value. -/
theorem c9_seed_zero_omitted (prompt aspect : List Char)
    (inputImages : Option (List LabeledImage)) :
    ({ prompt := prompt, aspect := aspect, seed := mkImageSeedPtr 0,
        inputImages := inputImages } : ImageStartReq) =
      { prompt := prompt, aspect := aspect, seed := mkImageSeedPtr imageSeedFlagDefault,
        inputImages := inputImages } ∧
    mkImageSeedPtr 0 = none ∧
    ({ prompt := prompt, seed := mkAvatarSeedPtr 0 } : AvatarStartReq) =
      { prompt := prompt, seed := mkAvatarSeedPtr avatarSeedFlagDefault } ∧
    mkAvatarSeedPtr 0 = none :=
  ⟨rfl, by simp [mkImageSeedPtr], rfl, by simp [mkAvatarSeedPtr]⟩

/-- Claim C10: with a valid name and existing inputs, a directory scan
finding fewer than six audio files makes the voice-clone command reject
with an error naming the count found, before the client is created and
before any network call (`proceeds` is never reached). -/
theorem c10_min_audio_files (name audioDir annotations : List Char)
    (files : List (List Char)) (h1 : 3 ≤ name.length) (h2 : name.length ≤ 64)
    (h6 : files.length < 6) :
    runCloneVoicePreNet name audioDir annotations true true (Except.ok files) =
      ClonePreOutcome.rejected (cloneMinFilesMsg files.length) ∧
    containsSub (cloneMinFilesMsg files.length) ((Nat.repr files.length).data) = true := by
  constructor
  · unfold runCloneVoicePreNet
    rw [if_neg (by omega)]
    simp [h6]
  · exact containsSub_append_right _ _

/-- Claim C10 (witness): a valid name with an empty scan result. -/
theorem c10_min_audio_files_witness :
    3 ≤ (("abc").data).length ∧ (("abc").data).length ≤ 64 ∧
      (([] : List (List Char)).length < 6) ∧
    (runCloneVoicePreNet (("abc").data) (("d").data) (("t").data) true true
        (Except.ok ([] : List (List Char))) =
      ClonePreOutcome.rejected (cloneMinFilesMsg ([] : List (List Char)).length) ∧
    containsSub (cloneMinFilesMsg ([] : List (List Char)).length)
        ((Nat.repr ([] : List (List Char)).length).data) = true) :=
  ⟨by decide, by decide, by decide,
    c10_min_audio_files (("abc").data) (("d").data) (("t").data) [] (by decide) (by decide)
      (by decide)⟩
